import Mathlib

/-!
Shallow embedding of the obsync-pg-plugin sync core: the event debouncer
(src/lib/debouncer.ts), the sync state tracker (StateTracker), the sync
engine (SyncEngine: syncNote, syncAttachment, upsertFile, removeFile,
handleFileEvent, fullReconcile, pullFromDB, retryFailed) and the
frontmatter tag pipeline (src/lib/parser.ts: normalizeStringArray,
parseFrontmatter tags, mergeTags).

JavaScript `Map` objects and plain-object records are embedded as
insertion-ordered association lists over `String` keys.  Content digests
(SHA-256 via the external crypto module) are abstracted as the `String`
hash values the engine compares; `Date` timestamps are abstracted as `Nat`.
Remote-store and vault I/O are embedded as explicit effect lists and
oracle parameters (`dbOk` for whether a remote call succeeds).
-/

namespace ObsyncPG

/-- Lookup in an insertion-ordered association list (JS `Map.get` /
`obj[key]`). -/
def mapGet {α : Type} (m : List (String × α)) (k : String) : Option α :=
  match m with
  | [] => none
  | (q, v) :: rest => if q = k then some v else mapGet rest k

/-- Insertion-ordered update (JS `Map.set` / `obj[key] = v`): replaces the
value in place if the key exists, otherwise appends at the end. -/
def mapSet {α : Type} (m : List (String × α)) (k : String) (v : α) :
    List (String × α) :=
  match m with
  | [] => [(k, v)]
  | (q, w) :: rest => if q = k then (k, v) :: rest else (q, w) :: mapSet rest k v

/-- Key removal (JS `Map.delete` / `delete obj[key]`). -/
def mapDelete {α : Type} (m : List (String × α)) (k : String) :
    List (String × α) :=
  match m with
  | [] => []
  | (q, w) :: rest => if q = k then rest else (q, w) :: mapDelete rest k

/-- File-system event kinds (types.ts `EventType`). -/
inductive EventType
  | Create
  | Modify
  | Delete
  | Rename
deriving DecidableEq, Repr

/-- A debounced file event (types.ts `FileEvent`); the timestamp is an
abstract tick. -/
structure FileEvent where
  path : String
  eventType : EventType
  timestamp : Nat
deriving DecidableEq, Repr

/-- Event-kind coalescing rule from `Debouncer.add` (debouncer.ts lines
47-57): an incoming Delete always wins; a recorded Delete is never
overwritten; Create followed by Modify stays Create; otherwise the
incoming kind replaces the recorded one. -/
def mergeEventType (existing incoming : EventType) : EventType :=
  if incoming = EventType.Delete then EventType.Delete
  else if existing = EventType.Create ∧ incoming = EventType.Modify then
    EventType.Create
  else if existing ≠ EventType.Delete then incoming
  else existing

/-- Debouncer state (debouncer.ts): the pending-event map keyed by path and
the stopped flag.  Timers are implicit: a pending entry is exactly an armed
timer, and `emitPath`/`flush` model expiry. -/
structure Debouncer where
  events : List (String × FileEvent)
  stopped : Bool
deriving Repr

/-- Fresh debouncer. -/
def Debouncer.init : Debouncer := { events := [], stopped := false }

/-- Record a raw event (`Debouncer.add`): rejected silently when stopped;
coalesces into an existing pending entry via `mergeEventType` (rearming the
timer), otherwise creates a fresh pending entry. -/
def Debouncer.add (d : Debouncer) (path : String) (et : EventType)
    (now : Nat) : Debouncer :=
  if d.stopped then d
  else
    match mapGet d.events path with
    | some pending =>
        { d with
            events := mapSet d.events path
              { path := path
                eventType := mergeEventType pending.eventType et
                timestamp := now } }
    | none =>
        { d with
            events := mapSet d.events path
              { path := path, eventType := et, timestamp := now } }

/-- Timer expiry for one path (`Debouncer.emit`): removes the pending entry
and returns the events handed to the callbacks (empty when no entry is
pending). -/
def Debouncer.emitPath (d : Debouncer) (path : String) :
    Debouncer × List FileEvent :=
  match mapGet d.events path with
  | none => (d, [])
  | some e => ({ d with events := mapDelete d.events path }, [e])

/-- Synchronous flush (`Debouncer.flush`): emits every pending event and
clears the map. -/
def Debouncer.flush (d : Debouncer) : Debouncer × List FileEvent :=
  ({ d with events := [] }, d.events.map Prod.snd)

/-- Per-path cached sync record (types.ts `FileState`). -/
structure FileState where
  hash : String
  lastSynced : Nat
  lastModified : Nat
  sizeBytes : Nat
deriving DecidableEq, Repr

/-- Persisted sync state (types.ts `SyncState`): the vault identity, the
last-full-sync timestamp and the per-path records. -/
structure SyncState where
  vaultPath : String
  lastFullSync : Option Nat
  files : List (String × FileState)
deriving DecidableEq, Repr

/-- The state tracker (StateTracker in part_002): current state plus the
dirty flag. -/
structure StateTracker where
  state : SyncState
  dirty : Bool
deriving DecidableEq, Repr

/-- Fresh tracker for a vault (StateTracker constructor). -/
def StateTracker.init (vaultPath : String) : StateTracker :=
  { state := { vaultPath := vaultPath, lastFullSync := none, files := [] }
    dirty := false }

/-- Load persisted state (`StateTracker.load`).  The blob argument is the
result of deserialization: `none` models a malformed blob (`JSON.parse`
threw; the exception is caught and ignored).  A parsed blob is adopted
wholesale only when its stored vault identity equals the current vault
identity; otherwise the state is left untouched. -/
def StateTracker.load (t : StateTracker) (blob : Option SyncState) :
    StateTracker :=
  match blob with
  | none => t
  | some parsed =>
      if parsed.vaultPath = t.state.vaultPath then { t with state := parsed }
      else t

/-- Record lookup (`StateTracker.getFileState`). -/
def StateTracker.getFileState (t : StateTracker) (path : String) :
    Option FileState :=
  mapGet t.state.files path

/-- Record update (`StateTracker.setFileState`): mutates and marks dirty. -/
def StateTracker.setFileState (t : StateTracker) (path : String)
    (s : FileState) : StateTracker :=
  { t with state := { t.state with files := mapSet t.state.files path s }
           dirty := true }

/-- Record removal (`StateTracker.removeFileState`): mutates and marks
dirty. -/
def StateTracker.removeFileState (t : StateTracker) (path : String) :
    StateTracker :=
  { t with state := { t.state with files := mapDelete t.state.files path }
           dirty := true }

/-- Update the last-full-sync timestamp (`StateTracker.setLastFullSync`). -/
def StateTracker.setLastFullSync (t : StateTracker) (time : Nat) :
    StateTracker :=
  { t with state := { t.state with lastFullSync := some time }, dirty := true }

/-- Dirty-check (`StateTracker.needsSync`): true when no record exists for
the path or the recorded hash differs from the current hash. -/
def StateTracker.needsSync (t : StateTracker) (path hash : String) : Bool :=
  match mapGet t.state.files path with
  | none => true
  | some s => s.hash ≠ hash

/-- Calls the engine makes against the remote store (Database methods used
by SyncEngine). -/
inductive RemoteOp
  | upsertNote (path : String)
  | upsertAttachment (path : String)
  | deleteNote (path : String)
  | deleteAttachment (path : String)
  | batchDeleteNotes (paths : List String)
  | batchDeleteAttachments (paths : List String)
deriving DecidableEq, Repr

/-- Classifies the delete-flavoured remote calls. -/
def RemoteOp.isDelete : RemoteOp → Bool
  | .deleteNote _ => true
  | .deleteAttachment _ => true
  | .batchDeleteNotes _ => true
  | .batchDeleteAttachments _ => true
  | _ => false

/-- Result of one incremental sync call: either it returns normally with
the updated tracker and the successful remote writes it performed, or it
throws, leaving the tracker at the point of the throw (the failed remote
call performed no write). -/
inductive SyncOutcome
  | ok (tracker : StateTracker) (ops : List RemoteOp)
  | err (tracker : StateTracker)
deriving DecidableEq, Repr

/-- Tracker carried by an outcome. -/
def SyncOutcome.tracker : SyncOutcome → StateTracker
  | .ok t _ => t
  | .err t => t

/-- Successful remote writes carried by an outcome. -/
def SyncOutcome.ops : SyncOutcome → List RemoteOp
  | .ok _ ops => ops
  | .err _ => []

/-- Whether the outcome returned normally. -/
def SyncOutcome.isOk : SyncOutcome → Bool
  | .ok _ _ => true
  | .err _ => false

/-- A vault entry as seen by `getAbstractFileByPath`: a file (with its
extension, the digest of its current content, its mtime and size) or a
folder; `none` from the lookup function means the path does not exist. -/
inductive VaultEntry
  | file (extension : String) (hash : String) (mtime : Nat) (size : Nat)
  | folder
deriving DecidableEq, Repr

/-- Sync a markdown note (`SyncEngine.syncNote`): skip when `needsSync` is
false; otherwise upsert the note remotely and, only if the upsert
succeeded, record the new digest in the tracker.  The note payload
(parsed frontmatter, body, links) does not influence control flow and is
elided; `hash` is `hashContent` of the file content, `dbOk` is whether
`db.upsertNote` succeeds. -/
def syncNote (t : StateTracker) (path hash : String) (now mtime size : Nat)
    (dbOk : Bool) : SyncOutcome :=
  if t.needsSync path hash = false then .ok t []
  else if dbOk then
    .ok (t.setFileState path
          { hash := hash, lastSynced := now, lastModified := mtime
            sizeBytes := size })
       [RemoteOp.upsertNote path]
  else .err t

/-- Sync an attachment (`SyncEngine.syncAttachment`): oversize attachments
are skipped before hashing; otherwise mirrors `syncNote` with
`db.upsertAttachment`. -/
def syncAttachment (maxSize : Nat) (t : StateTracker) (path hash : String)
    (now mtime size : Nat) (dbOk : Bool) : SyncOutcome :=
  if size > maxSize then .ok t []
  else if t.needsSync path hash = false then .ok t []
  else if dbOk then
    .ok (t.setFileState path
          { hash := hash, lastSynced := now, lastModified := mtime
            sizeBytes := size })
       [RemoteOp.upsertAttachment path]
  else .err t

/-- Upsert dispatch (`SyncEngine.upsertFile`): a missing file or a folder
returns silently with no remote call; ignored paths are skipped; the
`.md` extension selects the note path, anything else the attachment
path. -/
def upsertFile (vault : String → Option VaultEntry) (ignore : String → Bool)
    (maxSize : Nat) (t : StateTracker) (path : String) (now : Nat)
    (dbOk : Bool) : SyncOutcome :=
  match vault path with
  | some (VaultEntry.file ext hash mtime size) =>
      if ignore path then .ok t []
      else if ext = "md" then syncNote t path hash now mtime size dbOk
      else syncAttachment maxSize t path hash now mtime size dbOk
  | _ => .ok t []

/-- Remote delete (`SyncEngine.removeFile`): the remote record type is
inferred from the `.md` suffix; the local record is dropped only after the
remote delete succeeds. -/
def removeFile (t : StateTracker) (path : String) (dbOk : Bool) :
    SyncOutcome :=
  if dbOk then
    .ok (t.removeFileState path)
       [if path.endsWith (".md") then RemoteOp.deleteNote path
        else RemoteOp.deleteAttachment path]
  else .err t

/-- Incremental sync dispatch (`SyncEngine.syncFile`): Delete removes,
Create/Modify upserts; the switch has no Rename case, so Rename is a
no-op. -/
def syncFile (vault : String → Option VaultEntry) (ignore : String → Bool)
    (maxSize : Nat) (t : StateTracker) (path : String) (et : EventType)
    (now : Nat) (dbOk : Bool) : SyncOutcome :=
  match et with
  | EventType.Delete => removeFile t path dbOk
  | EventType.Create => upsertFile vault ignore maxSize t path now dbOk
  | EventType.Modify => upsertFile vault ignore maxSize t path now dbOk
  | EventType.Rename => .ok t []

/-- Engine-owned mutable state: the tracker, the retry queue (path to
attempt count) and the exclusive running flag. -/
structure EngineState where
  tracker : StateTracker
  retryQueue : List (String × Nat)
  isRunning : Bool
deriving DecidableEq, Repr

/-- Debounced-event handler (`SyncEngine.handleFileEvent`): runs the
incremental sync; on a throw, catches it and enqueues the path in the
retry queue at attempt count 0. -/
def handleFileEvent (vault : String → Option VaultEntry)
    (ignore : String → Bool) (maxSize : Nat) (e : EngineState)
    (ev : FileEvent) (now : Nat) (dbOk : Bool) :
    EngineState × List RemoteOp :=
  match syncFile vault ignore maxSize e.tracker ev.path ev.eventType now
      dbOk with
  | .ok t ops => ({ e with tracker := t }, ops)
  | .err t =>
      ({ e with tracker := t, retryQueue := mapSet e.retryQueue ev.path 0 },
       [])

/-- A local file as enumerated by a full-reconcile pass, with its digest
(computed by `hashContent`/`hashArrayBuffer` from its content) and stat
data. -/
structure LocalFile where
  path : String
  extension : String
  hash : String
  mtime : Nat
  size : Nat
deriving DecidableEq, Repr

/-- JS `new Map(entries)`: entries inserted left to right, later keys
overwriting earlier ones; used for `new Map([...noteHashes,
...attachHashes])`. -/
def jsMapOfEntries (entries : List (String × String)) :
    List (String × String) :=
  entries.foldl (fun m e => mapSet m e.1 e.2) []

/-- Push-set computation of `fullReconcile`: a local file is pushed when
the remote map has no digest for its path (JS falsy, so an empty-string
digest also counts as missing) or the remote digest differs. -/
def computeToSync (localFiles : List LocalFile)
    (dbHashes : List (String × String)) : List LocalFile :=
  localFiles.filter fun f =>
    match mapGet dbHashes f.path with
    | none => true
    | some dbHash => decide (dbHash = "" ∨ dbHash ≠ f.hash)

/-- Remote-delete-set computation of `fullReconcile`: every remote path
absent from the local path set. -/
def computeToDelete (localFiles : List LocalFile)
    (dbHashes : List (String × String)) : List String :=
  (dbHashes.map Prod.fst).filter fun p =>
    !(localFiles.any fun f => decide (f.path = p))

/-- Result of the per-file push loop of `fullReconcile`. -/
structure PushResult where
  tracker : StateTracker
  retryQueue : List (String × Nat)
  ops : List RemoteOp
deriving Repr

/-- Push loop of `fullReconcile`: syncs each file in the push set; a
per-file throw is caught and enqueues the path at attempt count 0 without
aborting the batch. -/
def reconcilePush (maxSize now : Nat) (dbOk : String → Bool) :
    List LocalFile → StateTracker → List (String × Nat) → PushResult
  | [], t, rq => { tracker := t, retryQueue := rq, ops := [] }
  | f :: rest, t, rq =>
      match
          (if f.extension = "md" then
            syncNote t f.path f.hash now f.mtime f.size (dbOk f.path)
          else
            syncAttachment maxSize t f.path f.hash now f.mtime f.size
              (dbOk f.path)) with
      | .ok t2 ops =>
          let r := reconcilePush maxSize now dbOk rest t2 rq
          { r with ops := ops ++ r.ops }
      | .err t2 =>
          reconcilePush maxSize now dbOk rest t2 (mapSet rq f.path 0)

/-- Result of a full-reconcile or pull pass. -/
structure ReconcileResult where
  engine : EngineState
  ops : List RemoteOp
  started : Bool
deriving Repr

/-- Full reconciliation (`SyncEngine.fullReconcile`): refuses to start when
a pass is already running; otherwise computes push and remote-delete sets
from the local files and the merged remote digest maps, pushes with
per-file failure isolation, batch-deletes by suffix partition, updates the
last-full-sync timestamp, and — via `finally` — resets the running flag on
every exit, including the throwing one (`fetchOk = false` models any throw
in the body, e.g. a failed remote hash listing, caught by the outer
handler). -/
def fullReconcile (maxSize now : Nat) (e : EngineState)
    (localFiles : List LocalFile)
    (noteHashes attachHashes : List (String × String)) (fetchOk : Bool)
    (dbOk : String → Bool) : ReconcileResult :=
  if e.isRunning then { engine := e, ops := [], started := false }
  else if fetchOk = false then
    { engine := { e with isRunning := false }, ops := [], started := true }
  else
    let dbHashes := jsMapOfEntries (noteHashes ++ attachHashes)
    let toSync := computeToSync localFiles dbHashes
    let toDelete := computeToDelete localFiles dbHashes
    let pr := reconcilePush maxSize now dbOk toSync e.tracker e.retryQueue
    let notesToDelete := toDelete.filter fun p => p.endsWith (".md")
    let attachToDelete := toDelete.filter fun p => !(p.endsWith (".md"))
    let delOps :=
      (if notesToDelete.isEmpty then []
       else [RemoteOp.batchDeleteNotes notesToDelete]) ++
      (if attachToDelete.isEmpty then []
       else [RemoteOp.batchDeleteAttachments attachToDelete])
    let t2 := notesToDelete.foldl (fun t p => t.removeFileState p) pr.tracker
    let t3 := attachToDelete.foldl (fun t p => t.removeFileState p) t2
    { engine := { tracker := t3.setLastFullSync now
                  retryQueue := pr.retryQueue
                  isRunning := false }
      ops := pr.ops ++ delOps
      started := true }

/-- Local file-system effects a pull pass can issue through the vault
adapter.  Deletion is in the vocabulary of the adapter but is never issued by
`pullFromDB`. -/
inductive LocalOp
  | write (path : String)
  | writeBinary (path : String)
  | createFolder (path : String)
  | deleteLocal (path : String)
deriving DecidableEq, Repr

/-- Classifies local deletions. -/
def LocalOp.isDeleteLocal : LocalOp → Bool
  | .deleteLocal _ => true
  | _ => false

/-- Path written by a write-flavoured local op. -/
def LocalOp.writePath : LocalOp → Option String
  | .write p => some p
  | .writeBinary p => some p
  | _ => none

/-- JS `path.substring(0, path.lastIndexOf of the slash character)`: the parent directory,
or the empty string when the path has no slash. -/
def parentDir (path : String) : String :=
  let parts := path.splitOn ("/")
  if parts.length ≤ 1 then ("")
  else String.intercalate ("/") parts.dropLast

/-- Directory creation guard (`SyncEngine.ensureFolder`): create the
folder only when no vault entry exists at its path. -/
def ensureFolderOps (vault : String → Option VaultEntry) (dir : String) :
    List LocalOp :=
  match vault dir with
  | none => [LocalOp.createFolder dir]
  | some _ => []

/-- A remote note row as returned by `getAllNotes` (fields not used by the
pull loop elided). -/
structure RemoteNote where
  path : String
  contentHash : String
deriving DecidableEq, Repr

/-- A remote attachment row as returned by `getAllAttachments`. -/
structure RemoteAttachment where
  path : String
  contentHash : String
deriving DecidableEq, Repr

/-- Pull loop body for one remote note: skip when a local file exists at
the path with the same content digest; otherwise ensure the parent folder
and overwrite the local file. -/
def pullNoteOps (vault : String → Option VaultEntry) (note : RemoteNote) :
    List LocalOp :=
  let skip :=
    match vault note.path with
    | some (VaultEntry.file _ h _ _) => decide (h = note.contentHash)
    | _ => false
  if skip then []
  else
    let dir := parentDir note.path
    (if dir ≠ "" then ensureFolderOps vault dir else []) ++
      [LocalOp.write note.path]

/-- Pull loop body for one remote attachment; mirrors `pullNoteOps` with a
binary write. -/
def pullAttachmentOps (vault : String → Option VaultEntry)
    (att : RemoteAttachment) : List LocalOp :=
  let skip :=
    match vault att.path with
    | some (VaultEntry.file _ h _ _) => decide (h = att.contentHash)
    | _ => false
  if skip then []
  else
    let dir := parentDir att.path
    (if dir ≠ "" then ensureFolderOps vault dir else []) ++
      [LocalOp.writeBinary att.path]

/-- Local effects of the pull body: all notes, then all attachments. -/
def pullOps (vault : String → Option VaultEntry) (notes : List RemoteNote)
    (atts : List RemoteAttachment) : List LocalOp :=
  (notes.map (pullNoteOps vault)).flatten ++
    (atts.map (pullAttachmentOps vault)).flatten

/-- Result of a pull pass. -/
structure PullResult where
  engine : EngineState
  ops : List LocalOp
  started : Bool
deriving Repr

/-- Pull pass (`SyncEngine.pullFromDB`): refuses to start when a pass is
already running; otherwise issues the pull effects, and — via `finally` —
resets the running flag on every exit, including the throwing one
(`fetchOk = false` models any throw in the body, caught by the outer
handler). -/
def pullFromDB (e : EngineState) (vault : String → Option VaultEntry)
    (notes : List RemoteNote) (atts : List RemoteAttachment)
    (fetchOk : Bool) : PullResult :=
  if e.isRunning then { engine := e, ops := [], started := false }
  else if fetchOk = false then
    { engine := { e with isRunning := false }, ops := [], started := true }
  else
    { engine := { e with isRunning := false }
      ops := pullOps vault notes atts
      started := true }

/-- Result of a retry pass. -/
structure RetryResult where
  tracker : StateTracker
  retryQueue : List (String × Nat)
  ops : List RemoteOp
  attempted : List String
deriving Repr

/-- Loop of `SyncEngine.retryFailed` over the snapshot of the retry queue
(`Array.from(this.retryQueue.entries())`): an entry at or above the
ceiling is dropped without an attempt; otherwise its count is bumped, the
upsert path is re-run (the `attempt` parameter is `upsertFile` with the
tracker threaded through), and the entry is removed on success. -/
def retryFailedGo (attempt : StateTracker → String → SyncOutcome)
    (maxRetries : Nat) : List (String × Nat) → StateTracker →
    List (String × Nat) → List RemoteOp → List String → RetryResult
  | [], t, rq, ops, att =>
      { tracker := t, retryQueue := rq, ops := ops, attempted := att }
  | (path, count) :: rest, t, rq, ops, att =>
      if count ≥ maxRetries then
        retryFailedGo attempt maxRetries rest t (mapDelete rq path) ops att
      else
        let rq1 := mapSet rq path (count + 1)
        match attempt t path with
        | .ok t2 newOps =>
            retryFailedGo attempt maxRetries rest t2 (mapDelete rq1 path)
              (ops ++ newOps) (att ++ [path])
        | .err t2 =>
            retryFailedGo attempt maxRetries rest t2 rq1 ops (att ++ [path])

/-- Retry pass (`SyncEngine.retryFailed`). -/
def retryFailed (attempt : StateTracker → String → SyncOutcome)
    (maxRetries : Nat) (t : StateTracker) (rq : List (String × Nat)) :
    RetryResult :=
  retryFailedGo attempt maxRetries rq t rq [] []

/-- Repeated retry passes: the engine state after n periodic runs of
`retryFailed`, threading the tracker and the retry queue from one pass to
the next. -/
def retryIter (attempt : StateTracker → String → SyncOutcome)
    (maxRetries : Nat) (t : StateTracker) (rq : List (String × Nat)) :
    Nat → RetryResult
  | 0 => { tracker := t, retryQueue := rq, ops := [], attempted := [] }
  | n + 1 =>
      let r := retryIter attempt maxRetries t rq n
      retryFailed attempt maxRetries r.tracker r.retryQueue

/-- A parsed YAML value as the frontmatter code sees it. -/
inductive Yaml
  | str (s : String)
  | list (items : List Yaml)
  | boolVal (b : Bool)
  | numVal (n : Int)
  | nullVal
deriving Repr

/-- JS falsiness of a YAML value (`!value`). -/
def Yaml.falsy : Yaml → Bool
  | .str s => decide (s = "")
  | .boolVal b => !b
  | .numVal n => decide (n = 0)
  | .nullVal => true
  | .list _ => false

/-- The string payload of a YAML string, for `Array.filter` by
the JS typeof-string test. -/
def Yaml.asString : Yaml → Option String
  | .str s => some s
  | _ => none

/-- JS whitespace test for the characters trim removes at string ends. -/
def isJsWhitespace (c : Char) : Bool :=
  c = ' ' ∨ c = '\t' ∨ c = '\n' ∨ c = '\r'

/-- Drops leading JS whitespace from a character list. -/
def dropLeadingWs : List Char → List Char
  | [] => []
  | c :: rest => if isJsWhitespace c then dropLeadingWs rest else c :: rest

/-- JS String.prototype.trim: removes whitespace from both ends. -/
def jsTrim (s : String) : String :=
  String.mk (dropLeadingWs ((dropLeadingWs s.data.reverse).reverse))

/-- JS String.prototype.toLowerCase (ASCII case fold, as the tag grammar
only admits ASCII letters). -/
def jsToLower (s : String) : String :=
  String.mk (s.data.map Char.toLower)

/-- Tag/alias normalization (parser.ts `normalizeStringArray`): a falsy or
absent value gives `[]`; a non-empty string gives itself as a singleton,
verbatim; a list keeps its string items, trims them and drops the empty
ones; anything else gives `[]`. -/
def normalizeStringArray (value : Option Yaml) : List String :=
  match value with
  | none => []
  | some v =>
      if v.falsy then []
      else
        match v with
        | .str s => if s = "" then [] else [s]
        | .list items =>
            ((items.filterMap Yaml.asString).map jsTrim).filter
              fun s => decide (0 < s.length)
        | _ => []

/-- The `tags` field of the result of `parseFrontmatter` (parser.ts line 117):
`normalizeStringArray(parsed.tags)` over the parsed YAML object. -/
def fmTags (parsed : List (String × Yaml)) : List String :=
  normalizeStringArray (mapGet parsed ("tags"))

/-- One loop of `mergeTags` (parser.ts): normalize each tag by
lower-casing then trimming, and append it unless empty or already seen. -/
def mergeTagsLoop (seen merged : List String) :
    List String → List String × List String
  | [] => (seen, merged)
  | tag :: rest =>
      let normalized := jsTrim (jsToLower tag)
      if normalized ≠ "" ∧ normalized ∉ seen then
        mergeTagsLoop (normalized :: seen) (merged ++ [normalized]) rest
      else mergeTagsLoop seen merged rest

/-- Merge frontmatter and inline tags (parser.ts `mergeTags`): two loops
sharing one seen-set, frontmatter tags first. -/
def mergeTags (frontmatterTags inlineTags : List String) : List String :=
  let fmPass := mergeTagsLoop [] [] frontmatterTags
  (mergeTagsLoop fmPass.1 fmPass.2 inlineTags).2

/-- Modelled from the spec: first-occurrence de-duplication ("de-duplicate
by normalized form, preserve first-occurrence order"). -/
def specDedupFirst (seen : List String) : List String → List String
  | [] => []
  | t :: rest =>
      if t ∈ seen then specDedupFirst seen rest
      else t :: specDedupFirst (t :: seen) rest

/-- Modelled from the spec: the label merge rule stated in spec words —
normalize (lower-case, trim) all tags, metadata tags first then inline
tags, drop empties, de-duplicate keeping first occurrences. -/
def specMergeTags (frontmatterTags inlineTags : List String) :
    List String :=
  specDedupFirst []
    (((frontmatterTags ++ inlineTags).map fun t =>
        jsTrim (jsToLower t)).filter
      fun s => decide (s ≠ ""))

theorem mapGet_set_self {α : Type} :
    ∀ (m : List (String × α)) (k : String) (v : α),
      mapGet (mapSet m k v) k = some v
  | [], k, v => by simp [mapSet, mapGet]
  | (q, w) :: rest, k, v => by
      by_cases h : q = k
      · simp [mapSet, h, mapGet]
      · simp [mapSet, h, mapGet, mapGet_set_self rest k v]

theorem mapGet_set_ne {α : Type} :
    ∀ (m : List (String × α)) (k k2 : String) (v : α), k2 ≠ k →
      mapGet (mapSet m k v) k2 = mapGet m k2
  | [], k, k2, v, h => by simp [mapSet, mapGet, Ne.symm h]
  | (q, w) :: rest, k, k2, v, h => by
      by_cases hq : q = k
      · subst hq
        simp [mapSet, mapGet, h, Ne.symm h]
      · simp only [mapSet, if_neg hq, mapGet]
        by_cases hq2 : q = k2
        · simp [hq2]
        · simp [hq2, mapGet_set_ne rest k k2 v h]

theorem mapGet_delete_ne {α : Type} :
    ∀ (m : List (String × α)) (k k2 : String), k2 ≠ k →
      mapGet (mapDelete m k) k2 = mapGet m k2
  | [], k, k2, h => by simp [mapDelete]
  | (q, w) :: rest, k, k2, h => by
      by_cases hq : q = k
      · subst hq
        simp [mapDelete, mapGet, Ne.symm h]
      · simp only [mapDelete, if_neg hq, mapGet]
        by_cases hq2 : q = k2
        · simp [hq2]
        · simp [hq2, mapGet_delete_ne rest k k2 h]

theorem mapGet_eq_none_of_not_mem {α : Type} :
    ∀ (m : List (String × α)) (k : String), k ∉ m.map Prod.fst →
      mapGet m k = none
  | [], k, _ => by simp [mapGet]
  | (q, w) :: rest, k, h => by
      simp only [List.map_cons, List.mem_cons] at h
      push_neg at h
      simp [mapGet, Ne.symm h.1, mapGet_eq_none_of_not_mem rest k h.2]

theorem mapGet_eq_some_mem {α : Type} :
    ∀ (m : List (String × α)) (k : String) (v : α),
      mapGet m k = some v → (k, v) ∈ m
  | [], k, v, h => by simp [mapGet] at h
  | (q, w) :: rest, k, v, h => by
      by_cases hq : q = k
      · subst hq
        simp [mapGet] at h
        simp [h]
      · simp only [mapGet, if_neg hq] at h
        exact List.mem_cons_of_mem _ (mapGet_eq_some_mem rest k v h)

theorem mapDelete_keys_sublist {α : Type} :
    ∀ (m : List (String × α)) (k : String),
      ((mapDelete m k).map Prod.fst).Sublist (m.map Prod.fst)
  | [], k => by simp [mapDelete]
  | (q, w) :: rest, k => by
      by_cases hq : q = k
      · simp only [mapDelete, if_pos hq, List.map_cons]
        exact (List.sublist_cons_self _ _)
      · simp only [mapDelete, if_neg hq, List.map_cons]
        exact List.Sublist.cons₂ _ (mapDelete_keys_sublist rest k)

theorem mapSet_keys {α : Type} :
    ∀ (m : List (String × α)) (k : String) (v : α),
      (mapSet m k v).map Prod.fst =
        if k ∈ m.map Prod.fst then m.map Prod.fst
        else m.map Prod.fst ++ [k]
  | [], k, v => by simp [mapSet]
  | (q, w) :: rest, k, v => by
      by_cases hq : q = k
      · simp [mapSet, hq]
      · simp only [mapSet, if_neg hq, List.map_cons, mapSet_keys rest k v]
        by_cases hk : k ∈ rest.map Prod.fst
        · simp [hk, Ne.symm hq]
        · simp [hk, Ne.symm hq]

theorem nodup_keys_mapSet {α : Type} (m : List (String × α)) (k : String)
    (v : α) (h : (m.map Prod.fst).Nodup) :
    ((mapSet m k v).map Prod.fst).Nodup := by
  rw [mapSet_keys]
  by_cases hk : k ∈ m.map Prod.fst
  · simpa [hk] using h
  · simp only [hk, if_false]
    simpa [List.nodup_append, hk] using h

theorem nodup_keys_mapDelete {α : Type} (m : List (String × α))
    (k : String) (h : (m.map Prod.fst).Nodup) :
    ((mapDelete m k).map Prod.fst).Nodup :=
  h.sublist (mapDelete_keys_sublist m k)

theorem mapGet_delete_self {α : Type} :
    ∀ (m : List (String × α)) (k : String), (m.map Prod.fst).Nodup →
      mapGet (mapDelete m k) k = none
  | [], k, _ => by simp [mapDelete, mapGet]
  | (q, w) :: rest, k, h => by
      simp only [List.map_cons, List.nodup_cons] at h
      by_cases hq : q = k
      · subst hq
        simp only [mapDelete, if_pos rfl]
        exact mapGet_eq_none_of_not_mem rest q h.1
      · simp [mapDelete, hq, mapGet, mapGet_delete_self rest k h.2]

/-- C3: merging a new event kind into a pending coalescer entry obeys:
an incoming or recorded Delete always yields Delete, recorded Create
followed by incoming Modify stays Create, otherwise the incoming kind
replaces the recorded one; and add(p, Create) then add(p, Modify) before
the window elapses emits exactly one Create for p, while add(p, Modify)
then add(p, Delete) emits exactly one Delete. -/
theorem claim3_debouncer_coalescing :
    (∀ e, mergeEventType e EventType.Delete = EventType.Delete) ∧
    (∀ i, mergeEventType EventType.Delete i = EventType.Delete) ∧
    (mergeEventType EventType.Create EventType.Modify = EventType.Create) ∧
    (∀ e i, i ≠ EventType.Delete → e ≠ EventType.Delete →
      ¬(e = EventType.Create ∧ i = EventType.Modify) →
      mergeEventType e i = i) ∧
    (∀ (p : String) (t1 t2 : Nat),
      (((Debouncer.init.add p EventType.Create t1).add p EventType.Modify
          t2).emitPath p).2 =
        [{ path := p, eventType := EventType.Create, timestamp := t2 }]) ∧
    (∀ (p : String) (t1 t2 : Nat),
      (((Debouncer.init.add p EventType.Modify t1).add p EventType.Delete
          t2).emitPath p).2 =
        [{ path := p, eventType := EventType.Delete, timestamp := t2 }]) := by
  refine ⟨?_, ?_, ?_, ?_, ?_, ?_⟩
  · intro e; cases e <;> rfl
  · intro i; cases i <;> rfl
  · rfl
  · intro e i hi he hce
    cases e <;> cases i <;> simp_all [mergeEventType]
  · intro p t1 t2
    simp [Debouncer.init, Debouncer.add, Debouncer.emitPath, mapGet, mapSet,
      mapDelete, mergeEventType]
  · intro p t1 t2
    simp [Debouncer.init, Debouncer.add, Debouncer.emitPath, mapGet, mapSet,
      mapDelete, mergeEventType]

/-- Witness for C3: the merge rule applied at the concrete pair
(recorded Modify, incoming Create) replaces the recorded kind. -/
theorem claim3_debouncer_coalescing_witness :
    mergeEventType EventType.Modify EventType.Create = EventType.Create :=
  claim3_debouncer_coalescing.2.2.2.1 EventType.Modify EventType.Create
    (by decide) (by decide) (by decide)

/-- C6: load leaves the tracker state at its prior value on a malformed
blob and on a vault-identity mismatch, never raises (it is a total
function), and never partially merges: the resulting state is either the
prior state or exactly the parsed blob whose identity matched. -/
theorem claim6_state_load_guard :
    ∀ (t : StateTracker) (blob : Option SyncState),
      (StateTracker.load t none = t) ∧
      (∀ s, blob = some s → s.vaultPath ≠ t.state.vaultPath →
        StateTracker.load t blob = t) ∧
      ((StateTracker.load t blob).state = t.state ∨
        (∃ s, blob = some s ∧ s.vaultPath = t.state.vaultPath ∧
          (StateTracker.load t blob).state = s)) := by
  intro t blob
  refine ⟨rfl, ?_, ?_⟩
  · rintro s rfl hne
    simp [StateTracker.load, hne]
  · cases blob with
    | none => exact Or.inl rfl
    | some s =>
        by_cases hid : s.vaultPath = t.state.vaultPath
        · exact Or.inr ⟨s, rfl, hid, by simp [StateTracker.load, hid]⟩
        · exact Or.inl (by simp [StateTracker.load, hid])

/-- Witness for C6: loading a blob whose stored vault identity differs
from the current vault leaves the freshly initialized tracker unchanged. -/
theorem claim6_state_load_guard_witness :
    StateTracker.load (StateTracker.init ("vaultA"))
        (some { vaultPath := "vaultB", lastFullSync := none, files := [] }) =
      StateTracker.init ("vaultA") :=
  (claim6_state_load_guard (StateTracker.init ("vaultA"))
      (some { vaultPath := "vaultB", lastFullSync := none, files := [] })).2.1
    _ rfl (by decide)

/-- C2: on a path that currently needs syncing, a Create/Modify syncFile
call performs exactly one remote upsert and records the new digest; a
second Create/Modify call on the unchanged content performs zero remote
writes; and needsSync is false exactly when a record exists for the path
with the same recorded digest. -/
theorem claim2_incremental_idempotence :
    ∀ (vault : String → Option VaultEntry) (ignore : String → Bool)
      (maxSize : Nat) (t : StateTracker) (path hsh : String)
      (now mtime size : Nat) (k1 k2 : EventType) (now2 : Nat) (dbOk2 : Bool),
      vault path = some (VaultEntry.file ("md") hsh mtime size) →
      ignore path = false →
      t.needsSync path hsh = true →
      (k1 = EventType.Create ∨ k1 = EventType.Modify) →
      (k2 = EventType.Create ∨ k2 = EventType.Modify) →
      (syncFile vault ignore maxSize t path k1 now true =
        SyncOutcome.ok
          (t.setFileState path
            { hash := hsh, lastSynced := now, lastModified := mtime
              sizeBytes := size })
          [RemoteOp.upsertNote path]) ∧
      (((t.setFileState path
            { hash := hsh, lastSynced := now, lastModified := mtime
              sizeBytes := size }).getFileState path).map FileState.hash =
        some hsh) ∧
      (syncFile vault ignore maxSize
          (t.setFileState path
            { hash := hsh, lastSynced := now, lastModified := mtime
              sizeBytes := size }) path k2 now2 dbOk2 =
        SyncOutcome.ok
          (t.setFileState path
            { hash := hsh, lastSynced := now, lastModified := mtime
              sizeBytes := size }) []) ∧
      (∀ (t2 : StateTracker) (p2 h2 : String),
        t2.needsSync p2 h2 = false ↔
          ∃ s, t2.getFileState p2 = some s ∧ s.hash = h2) := by
  intro vault ignore maxSize t path hsh now mtime size k1 k2 now2 dbOk2
  intro hv hig hns hk1 hk2
  refine ⟨?_, ?_, ?_, ?_⟩
  · rcases hk1 with rfl | rfl <;>
      simp [syncFile, upsertFile, hv, hig, syncNote, hns]
  · simp [StateTracker.getFileState, StateTracker.setFileState,
      mapGet_set_self]
  · have hns2 :
        (t.setFileState path
          { hash := hsh, lastSynced := now, lastModified := mtime
            sizeBytes := size }).needsSync path hsh = false := by
      simp [StateTracker.needsSync, StateTracker.setFileState,
        mapGet_set_self]
    rcases hk2 with rfl | rfl <;>
      simp [syncFile, upsertFile, hv, hig, syncNote, hns2]
  · intro t2 p2 h2
    cases hm : mapGet t2.state.files p2 with
    | none => simp [StateTracker.needsSync, StateTracker.getFileState, hm]
    | some s =>
        simp [StateTracker.needsSync, StateTracker.getFileState, hm]

/-- Witness for C2: after a Create sync recorded digest h1 for a.md, a
Modify sync of the unchanged content is a no-op with zero remote
writes. -/
theorem claim2_incremental_idempotence_witness :
    syncFile (fun _ => some (VaultEntry.file ("md") ("h1") 5 7))
        (fun _ => false) 10
        ((StateTracker.init ("v")).setFileState ("a.md")
          { hash := "h1", lastSynced := 3, lastModified := 5, sizeBytes := 7 })
        ("a.md") EventType.Modify 4 true =
      SyncOutcome.ok
        ((StateTracker.init ("v")).setFileState ("a.md")
          { hash := "h1", lastSynced := 3, lastModified := 5, sizeBytes := 7 })
        [] :=
  (claim2_incremental_idempotence (fun _ => some (VaultEntry.file ("md")
        ("h1") 5 7)) (fun _ => false) 10 (StateTracker.init ("v")) ("a.md")
      ("h1") 3 5 7 EventType.Create EventType.Modify 4 true rfl rfl
      (by decide) (Or.inl rfl) (Or.inr rfl)).2.2.1

/-- C4: when the remote upsert throws during an incremental Create/Modify
sync, the handler leaves the sync state store untouched and enqueues a
retry entry for the path at attempt count 0. -/
theorem claim4_upsert_failure_isolation :
    ∀ (vault : String → Option VaultEntry) (ignore : String → Bool)
      (maxSize : Nat) (e : EngineState) (path hsh ext : String)
      (now mtime size ts : Nat) (k : EventType),
      vault path = some (VaultEntry.file ext hsh mtime size) →
      ignore path = false →
      (ext = "md" ∨ size ≤ maxSize) →
      e.tracker.needsSync path hsh = true →
      (k = EventType.Create ∨ k = EventType.Modify) →
      (handleFileEvent vault ignore maxSize e
          { path := path, eventType := k, timestamp := ts } now false =
        ({ e with retryQueue := mapSet e.retryQueue path 0 }, [])) ∧
      (({ e with retryQueue := mapSet e.retryQueue path 0 } :
          EngineState).tracker = e.tracker) ∧
      (mapGet (mapSet e.retryQueue path 0) path = some 0) := by
  intro vault ignore maxSize e path hsh ext now mtime size ts k
  intro hv hig hguard hns hk
  have key : syncFile vault ignore maxSize e.tracker path k now false =
      SyncOutcome.err e.tracker := by
    rcases hk with rfl | rfl <;>
    · simp only [syncFile, upsertFile, hv, hig, Bool.false_eq_true,
        if_false]
      by_cases hext : ext = "md"
      · simp [hext, syncNote, hns]
      · have hsz : ¬ size > maxSize := by
          rcases hguard with hg | hg
          · exact absurd hg hext
          · omega
        simp [hext, syncAttachment, hsz, hns]
  refine ⟨?_, rfl, mapGet_set_self _ _ _⟩
  simp [handleFileEvent, key]

/-- Witness for C4: a failing upsert for a.md on a fresh engine leaves the
tracker empty and enqueues a.md at attempt count 0. -/
theorem claim4_upsert_failure_isolation_witness :
    handleFileEvent (fun _ => some (VaultEntry.file ("md") ("h1") 5 7))
        (fun _ => false) 10
        { tracker := StateTracker.init ("v"), retryQueue := []
          isRunning := false }
        { path := "a.md", eventType := EventType.Modify, timestamp := 1 } 2
        false =
      ({ tracker := StateTracker.init ("v"), retryQueue := [("a.md", 0)]
         isRunning := false }, []) :=
  (claim4_upsert_failure_isolation (fun _ => some (VaultEntry.file ("md")
        ("h1") 5 7)) (fun _ => false) 10
      { tracker := StateTracker.init ("v"), retryQueue := []
        isRunning := false } ("a.md") ("h1") ("md") 2 5 7 1
      EventType.Modify rfl rfl (Or.inl rfl) (by decide)
      (Or.inr rfl)).1

/-- C10: from a non-running engine, fullReconcile and pullFromDB leave the
running flag false on exit both on the normal path and on the throwing
path, so a failed pass does not block the next pass from starting. -/
theorem claim10_running_flag_reset :
    ∀ (maxSize now : Nat) (e : EngineState) (localFiles : List LocalFile)
      (nh ah : List (String × String)) (fetchOk : Bool)
      (dbOk : String → Bool) (vault : String → Option VaultEntry)
      (notes : List RemoteNote) (atts : List RemoteAttachment)
      (fetchOk2 : Bool),
      e.isRunning = false →
      ((fullReconcile maxSize now e localFiles nh ah fetchOk
          dbOk).engine.isRunning = false) ∧
      ((pullFromDB e vault notes atts fetchOk2).engine.isRunning = false) ∧
      ((fullReconcile maxSize now
          (fullReconcile maxSize now e localFiles nh ah false dbOk).engine
          localFiles nh ah fetchOk dbOk).started = true) ∧
      ((pullFromDB (pullFromDB e vault notes atts false).engine vault notes
          atts fetchOk2).started = true) := by
  intro maxSize now e localFiles nh ah fetchOk dbOk vault notes atts
    fetchOk2 hrun
  cases fetchOk <;> cases fetchOk2 <;>
    simp [fullReconcile, pullFromDB, hrun]

/-- Witness for C10: a concrete failing reconcile pass on a fresh engine
ends with the running flag false. -/
theorem claim10_running_flag_reset_witness :
    (fullReconcile 10 0
        { tracker := StateTracker.init ("v"), retryQueue := []
          isRunning := false } [] [] [] false
        (fun _ => true)).engine.isRunning = false :=
  (claim10_running_flag_reset 10 0
      { tracker := StateTracker.init ("v"), retryQueue := []
        isRunning := false } [] [] [] false (fun _ => true)
      (fun _ => none) [] [] false rfl).1

theorem pullNoteOps_mem (vault : String → Option VaultEntry)
    (note : RemoteNote) (op : LocalOp) (h : op ∈ pullNoteOps vault note) :
    op = LocalOp.write note.path ∨ ∃ d, op = LocalOp.createFolder d := by
  simp only [pullNoteOps] at h
  split at h
  · simp at h
  · rcases List.mem_append.mp h with hl | hr
    · split at hl
      · unfold ensureFolderOps at hl
        split at hl
        · simp at hl
          exact Or.inr ⟨_, hl⟩
        · simp at hl
      · simp at hl
    · simp at hr
      exact Or.inl hr

theorem pullAttachmentOps_mem (vault : String → Option VaultEntry)
    (att : RemoteAttachment) (op : LocalOp)
    (h : op ∈ pullAttachmentOps vault att) :
    op = LocalOp.writeBinary att.path ∨ ∃ d, op = LocalOp.createFolder d := by
  simp only [pullAttachmentOps] at h
  split at h
  · simp at h
  · rcases List.mem_append.mp h with hl | hr
    · split at hl
      · unfold ensureFolderOps at hl
        split at hl
        · simp at hl
          exact Or.inr ⟨_, hl⟩
        · simp at hl
      · simp at hl
    · simp at hr
      exact Or.inl hr

theorem pullOps_mem (vault : String → Option VaultEntry)
    (notes : List RemoteNote) (atts : List RemoteAttachment) (op : LocalOp)
    (h : op ∈ pullOps vault notes atts) :
    (∃ note ∈ notes, op ∈ pullNoteOps vault note) ∨
      (∃ att ∈ atts, op ∈ pullAttachmentOps vault att) := by
  rcases List.mem_append.mp h with hl | hr
  · rcases List.mem_flatten.mp hl with ⟨l, hlmem, hopl⟩
    rcases List.mem_map.mp hlmem with ⟨note, hnote, rfl⟩
    exact Or.inl ⟨note, hnote, hopl⟩
  · rcases List.mem_flatten.mp hr with ⟨l, hlmem, hopl⟩
    rcases List.mem_map.mp hlmem with ⟨att, hatt, rfl⟩
    exact Or.inr ⟨att, hatt, hopl⟩

/-- C7: a remote note or attachment whose digest equals the digest of the
existing local file at its path contributes zero local effects to a pull;
every effect a pull pass issues is a write or folder creation targeting a
remote path (or its parent), and a pull pass never issues a local
deletion. -/
theorem claim7_pull_skip_and_no_delete :
    ∀ (vault : String → Option VaultEntry) (notes : List RemoteNote)
      (atts : List RemoteAttachment) (e : EngineState) (fetchOk : Bool),
      (∀ (note : RemoteNote) (ext : String) (mtime size : Nat),
        vault note.path =
            some (VaultEntry.file ext note.contentHash mtime size) →
        pullNoteOps vault note = []) ∧
      (∀ (att : RemoteAttachment) (ext : String) (mtime size : Nat),
        vault att.path =
            some (VaultEntry.file ext att.contentHash mtime size) →
        pullAttachmentOps vault att = []) ∧
      (e.isRunning = false → fetchOk = true →
        (pullFromDB e vault notes atts fetchOk).ops =
          pullOps vault notes atts) ∧
      (∀ op ∈ (pullFromDB e vault notes atts fetchOk).ops,
        op.isDeleteLocal = false) ∧
      (∀ op ∈ (pullFromDB e vault notes atts fetchOk).ops, ∀ p,
        op.writePath = some p →
          p ∈ notes.map RemoteNote.path ∨
            p ∈ atts.map RemoteAttachment.path) := by
  intro vault notes atts e fetchOk
  have hopsub : ∀ op ∈ (pullFromDB e vault notes atts fetchOk).ops,
      op ∈ pullOps vault notes atts := by
    intro op hop
    unfold pullFromDB at hop
    split at hop
    · simp at hop
    · split at hop
      · simp at hop
      · exact hop
  refine ⟨?_, ?_, ?_, ?_, ?_⟩
  · intro note ext mtime size hv
    simp [pullNoteOps, hv]
  · intro att ext mtime size hv
    simp [pullAttachmentOps, hv]
  · intro hrun hfetch
    simp [pullFromDB, hrun, hfetch]
  · intro op hop
    rcases pullOps_mem vault notes atts op (hopsub op hop) with
      ⟨note, _, hmem⟩ | ⟨att, _, hmem⟩
    · rcases pullNoteOps_mem vault note op hmem with rfl | ⟨d, rfl⟩ <;> rfl
    · rcases pullAttachmentOps_mem vault att op hmem with rfl | ⟨d, rfl⟩ <;>
        rfl
  · intro op hop p hp
    rcases pullOps_mem vault notes atts op (hopsub op hop) with
      ⟨note, hnote, hmem⟩ | ⟨att, hatt, hmem⟩
    · rcases pullNoteOps_mem vault note op hmem with rfl | ⟨d, rfl⟩
      · simp only [LocalOp.writePath, Option.some_inj] at hp
        subst hp
        exact Or.inl (List.mem_map_of_mem _ hnote)
      · simp [LocalOp.writePath] at hp
    · rcases pullAttachmentOps_mem vault att op hmem with rfl | ⟨d, rfl⟩
      · simp only [LocalOp.writePath, Option.some_inj] at hp
        subst hp
        exact Or.inr (List.mem_map_of_mem _ hatt)
      · simp [LocalOp.writePath] at hp

/-- Witness for C7: pulling a remote note whose digest matches the local
file at the same path performs zero local effects. -/
theorem claim7_pull_skip_and_no_delete_witness :
    pullNoteOps (fun _ => some (VaultEntry.file ("md") ("h") 1 2))
        { path := "n.md", contentHash := "h" } = [] :=
  (claim7_pull_skip_and_no_delete
      (fun _ => some (VaultEntry.file ("md") ("h") 1 2)) [] []
      { tracker := StateTracker.init ("v"), retryQueue := []
        isRunning := false } true).1
    { path := "n.md", contentHash := "h" } ("md") 1 2 rfl

/-- C1: the push set computed by fullReconcile contains exactly the local
files whose digest is absent from or differs from the remote digest map,
and the remote-delete set contains exactly the remote paths absent from
the local path set (remote digests, being hex hash strings, are
non-empty). -/
theorem claim1_full_reconcile_sets :
    ∀ (L : List LocalFile) (R : List (String × String)),
      (∀ pv ∈ R, pv.2 ≠ "") →
      (∀ f : LocalFile, f ∈ computeToSync L R ↔
        f ∈ L ∧ ¬ mapGet R f.path = some f.hash) ∧
      (∀ p : String, p ∈ computeToDelete L R ↔
        (p ∈ R.map Prod.fst ∧ ∀ f ∈ L, f.path ≠ p)) := by
  intro L R hval
  constructor
  · intro f
    rw [computeToSync, List.mem_filter]
    cases hm : mapGet R f.path with
    | none => simp [hm]
    | some dbHash =>
        have hne : dbHash ≠ "" :=
          hval (f.path, dbHash) (mapGet_eq_some_mem R f.path dbHash hm)
        simp [hm, hne]
  · intro p
    rw [computeToDelete, List.mem_filter]
    simp [List.any_eq_true]

/-- Witness for C1: with local files a.md (digest h1) and b.md (digest h2)
and remote digests a.md maps to h1, c.md maps to h3, the push set contains
b.md and the delete set contains c.md. -/
theorem claim1_full_reconcile_sets_witness :
    ({ path := "b.md", extension := "md", hash := "h2", mtime := 1
       size := 2 } : LocalFile) ∈
        computeToSync
          [{ path := "a.md", extension := "md", hash := "h1", mtime := 1
             size := 2 },
           { path := "b.md", extension := "md", hash := "h2", mtime := 1
             size := 2 }]
          [("a.md", "h1"), ("c.md", "h3")] ∧
      ("c.md" : String) ∈
        computeToDelete
          [{ path := "a.md", extension := "md", hash := "h1", mtime := 1
             size := 2 },
           { path := "b.md", extension := "md", hash := "h2", mtime := 1
             size := 2 }]
          [("a.md", "h1"), ("c.md", "h3")] :=
  ⟨((claim1_full_reconcile_sets
        [{ path := "a.md", extension := "md", hash := "h1", mtime := 1
           size := 2 },
         { path := "b.md", extension := "md", hash := "h2", mtime := 1
           size := 2 }]
        [("a.md", "h1"), ("c.md", "h3")] (by decide)).1 _).mpr
      ⟨by decide, by decide⟩,
    ((claim1_full_reconcile_sets
        [{ path := "a.md", extension := "md", hash := "h1", mtime := 1
           size := 2 },
         { path := "b.md", extension := "md", hash := "h2", mtime := 1
           size := 2 }]
        [("a.md", "h1"), ("c.md", "h3")] (by decide)).2 _).mpr
      ⟨by decide, by decide⟩⟩

theorem mergeTagsLoop_append :
    ∀ (l1 l2 seen merged : List String),
      mergeTagsLoop seen merged (l1 ++ l2) =
        mergeTagsLoop (mergeTagsLoop seen merged l1).1
          (mergeTagsLoop seen merged l1).2 l2
  | [], l2, seen, merged => by simp [mergeTagsLoop]
  | t :: rest, l2, seen, merged => by
      by_cases h : jsTrim (jsToLower t) ≠ "" ∧ jsTrim (jsToLower t) ∉ seen
      · simp only [List.cons_append, mergeTagsLoop, if_pos h]
        exact mergeTagsLoop_append rest l2 _ _
      · simp only [List.cons_append, mergeTagsLoop, if_neg h]
        exact mergeTagsLoop_append rest l2 seen merged

theorem mergeTagsLoop_spec :
    ∀ (l seen merged : List String),
      (mergeTagsLoop seen merged l).2 =
        merged ++ specDedupFirst seen
          ((l.map fun t => jsTrim (jsToLower t)).filter fun s => decide (s ≠ ""))
  | [], seen, merged => by simp [mergeTagsLoop, specDedupFirst]
  | t :: rest, seen, merged => by
      by_cases hn : jsTrim (jsToLower t) = ""
      · have hcond : ¬(jsTrim (jsToLower t) ≠ "" ∧ jsTrim (jsToLower t) ∉ seen) := by
          simp [hn]
        simp only [mergeTagsLoop, if_neg hcond, List.map_cons,
          List.filter_cons, hn]
        simpa using mergeTagsLoop_spec rest seen merged
      · by_cases hm : jsTrim (jsToLower t) ∈ seen
        · have hcond : ¬(jsTrim (jsToLower t) ≠ "" ∧ jsTrim (jsToLower t) ∉ seen) := by
            simp [hm]
          simp only [mergeTagsLoop, if_neg hcond, List.map_cons,
            List.filter_cons]
          rw [if_pos (by simpa using hn)]
          rw [mergeTagsLoop_spec rest seen merged]
          simp [specDedupFirst, hm]
        · have hcond : jsTrim (jsToLower t) ≠ "" ∧ jsTrim (jsToLower t) ∉ seen :=
            ⟨hn, hm⟩
          simp only [mergeTagsLoop, if_pos hcond, List.map_cons,
            List.filter_cons]
          rw [if_pos (by simpa using hn)]
          rw [mergeTagsLoop_spec rest (jsTrim (jsToLower t) :: seen)
            (merged ++ [jsTrim (jsToLower t)])]
          simp [specDedupFirst, hm]

/-- Counterexample for C8: the parsed tags field preserves case and keeps
duplicates-modulo-case, and a single-string tags value is not trimmed, so
the tags of the parsed metadata block are neither lower-cased nor
whitespace-normalized nor de-duplicated at parse time. -/
theorem claim8_counterexample_tags_not_normalized :
    fmTags [("tags", Yaml.list [Yaml.str ("Foo"), Yaml.str ("foo")])] =
        ["Foo", "foo"] ∧
      jsToLower ("Foo") = "foo" ∧
      ("Foo" : String) ≠ ("foo" : String) ∧
      fmTags [("tags", Yaml.str (" x "))] = [" x "] ∧
      jsTrim (" x ") = "x" ∧
      (" x " : String) ≠ ("x" : String) :=
  ⟨by decide, by decide, by decide, by decide, by decide, by decide⟩

/-- C8 amended: parse-time tags are only filtered to strings, with list
entries trimmed and empties dropped (order-preserving, case preserved,
duplicates kept) and a single non-empty string passed through verbatim;
the case-normalization, trim-after-lowercase and first-occurrence
de-duplication claimed by the spec happen later, in mergeTags, whose
output equals the spec-worded normalize-then-dedup merge. -/
theorem claim8_amended_tags_pipeline :
    (∀ ss : List String,
      fmTags [("tags", Yaml.list (ss.map Yaml.str))] =
        (ss.map jsTrim).filter fun s => decide (0 < s.length)) ∧
    (∀ s : String, s ≠ "" → fmTags [("tags", Yaml.str s)] = [s]) ∧
    (∀ fm il, mergeTags fm il = specMergeTags fm il) := by
  refine ⟨?_, ?_, ?_⟩
  · intro ss
    have hcomp : (Yaml.asString ∘ Yaml.str) = some := funext fun s => rfl
    simp [fmTags, mapGet, normalizeStringArray, Yaml.falsy,
      List.filterMap_map, hcomp]
  · intro s hs
    simp [fmTags, mapGet, normalizeStringArray, Yaml.falsy, hs]
  · intro fm il
    simp only [mergeTags]
    rw [← mergeTagsLoop_append fm il [] []]
    rw [mergeTagsLoop_spec]
    simp [specMergeTags]

/-- Witness for C8 amended: a single-string non-empty tags value is passed
through as a one-element list. -/
theorem claim8_amended_tags_pipeline_witness :
    fmTags [("tags", Yaml.str ("project"))] = ["project"] :=
  claim8_amended_tags_pipeline.2.1 ("project") (by decide)

theorem retryGo_cons_ge (attempt : StateTracker → String → SyncOutcome)
    (maxRetries : Nat) (path : String) (count : Nat)
    (rest : List (String × Nat)) (t : StateTracker)
    (rq : List (String × Nat)) (ops : List RemoteOp) (att : List String)
    (h : count ≥ maxRetries) :
    retryFailedGo attempt maxRetries ((path, count) :: rest) t rq ops att =
      retryFailedGo attempt maxRetries rest t (mapDelete rq path) ops
        att := by
  simp [retryFailedGo, h]

theorem retryGo_cons_ok (attempt : StateTracker → String → SyncOutcome)
    (maxRetries : Nat) (path : String) (count : Nat)
    (rest : List (String × Nat)) (t t2 : StateTracker)
    (rq : List (String × Nat)) (ops newOps : List RemoteOp)
    (att : List String) (hc : ¬ count ≥ maxRetries)
    (hatt : attempt t path = SyncOutcome.ok t2 newOps) :
    retryFailedGo attempt maxRetries ((path, count) :: rest) t rq ops att =
      retryFailedGo attempt maxRetries rest t2
        (mapDelete (mapSet rq path (count + 1)) path) (ops ++ newOps)
        (att ++ [path]) := by
  simp [retryFailedGo, hc, hatt]

theorem retryGo_cons_err (attempt : StateTracker → String → SyncOutcome)
    (maxRetries : Nat) (path : String) (count : Nat)
    (rest : List (String × Nat)) (t t2 : StateTracker)
    (rq : List (String × Nat)) (ops : List RemoteOp) (att : List String)
    (hc : ¬ count ≥ maxRetries) (hatt : attempt t path = SyncOutcome.err t2) :
    retryFailedGo attempt maxRetries ((path, count) :: rest) t rq ops att =
      retryFailedGo attempt maxRetries rest t2 (mapSet rq path (count + 1))
        ops (att ++ [path]) := by
  simp [retryFailedGo, hc, hatt]

theorem retryGo_frame (attempt : StateTracker → String → SyncOutcome)
    (maxRetries : Nat) :
    ∀ (entries : List (String × Nat)) (t : StateTracker)
      (rq : List (String × Nat)) (ops : List RemoteOp) (att : List String)
      (k : String), k ∉ entries.map Prod.fst →
      mapGet (retryFailedGo attempt maxRetries entries t rq ops
          att).retryQueue k = mapGet rq k := by
  intro entries
  induction entries with
  | nil => intro t rq ops att k _; rfl
  | cons e rest ih =>
      obtain ⟨path, count⟩ := e
      intro t rq ops att k hk
      simp only [List.map_cons, List.mem_cons] at hk
      push_neg at hk
      obtain ⟨hkp, hkrest⟩ := hk
      by_cases hge : count ≥ maxRetries
      · rw [retryGo_cons_ge attempt maxRetries path count rest t rq ops att
          hge]
        rw [ih t (mapDelete rq path) ops att k hkrest]
        exact mapGet_delete_ne rq path k hkp
      · cases hatt : attempt t path with
        | ok t2 newOps =>
            rw [retryGo_cons_ok attempt maxRetries path count rest t t2 rq
              ops newOps att hge hatt]
            rw [ih t2 _ _ _ k hkrest]
            rw [mapGet_delete_ne _ path k hkp, mapGet_set_ne _ path k _ hkp]
        | err t2 =>
            rw [retryGo_cons_err attempt maxRetries path count rest t t2 rq
              ops att hge hatt]
            rw [ih t2 _ _ _ k hkrest]
            exact mapGet_set_ne _ path k _ hkp

theorem retryGo_lookup (attempt : StateTracker → String → SyncOutcome)
    (maxRetries : Nat) (okf : String → Bool)
    (hcl : ∀ t p, (attempt t p).isOk = okf p) :
    ∀ (entries : List (String × Nat)) (t : StateTracker)
      (rq : List (String × Nat)) (ops : List RemoteOp) (att : List String)
      (k : String) (c : Nat),
      (entries.map Prod.fst).Nodup → (rq.map Prod.fst).Nodup →
      (k, c) ∈ entries →
      mapGet (retryFailedGo attempt maxRetries entries t rq ops
          att).retryQueue k =
        if maxRetries ≤ c ∨ okf k = true then none else some (c + 1) := by
  intro entries
  induction entries with
  | nil => intro t rq ops att k c _ _ hmem; simp at hmem
  | cons e rest ih =>
      obtain ⟨path, count⟩ := e
      intro t rq ops att k c hnodE hnodQ hmem
      simp only [List.map_cons, List.nodup_cons] at hnodE
      rcases List.mem_cons.mp hmem with heq | hmemrest
      · have hk : k = path := congrArg Prod.fst heq
        have hc : c = count := congrArg Prod.snd heq
        subst hk
        subst hc
        by_cases hge : c ≥ maxRetries
        · rw [retryGo_cons_ge attempt maxRetries k c rest t rq ops att
            hge]
          rw [retryGo_frame attempt maxRetries rest t _ ops att k hnodE.1]
          rw [mapGet_delete_self rq k hnodQ]
          rw [if_pos (Or.inl hge)]
        · cases hatt : attempt t k with
          | ok t2 newOps =>
              have hok : okf k = true := by
                rw [← hcl t k, hatt]; rfl
              rw [retryGo_cons_ok attempt maxRetries k c rest t t2 rq
                ops newOps att hge hatt]
              rw [retryGo_frame attempt maxRetries rest t2 _ _ _ k hnodE.1]
              rw [mapGet_delete_self _ k
                (nodup_keys_mapSet rq k _ hnodQ)]
              rw [if_pos (Or.inr hok)]
          | err t2 =>
              have hok : okf k = false := by
                rw [← hcl t k, hatt]; rfl
              rw [retryGo_cons_err attempt maxRetries k c rest t t2 rq
                ops att hge hatt]
              rw [retryGo_frame attempt maxRetries rest t2 _ _ _ k hnodE.1]
              rw [mapGet_set_self rq k (c + 1)]
              rw [if_neg (by simp [hok]; omega)]
      · by_cases hge : count ≥ maxRetries
        · rw [retryGo_cons_ge attempt maxRetries path count rest t rq ops
            att hge]
          exact ih t (mapDelete rq path) ops att k c hnodE.2
            (nodup_keys_mapDelete rq path hnodQ) hmemrest
        · cases hatt : attempt t path with
          | ok t2 newOps =>
              rw [retryGo_cons_ok attempt maxRetries path count rest t t2 rq
                ops newOps att hge hatt]
              exact ih t2 _ _ _ k c hnodE.2
                (nodup_keys_mapDelete _ path
                  (nodup_keys_mapSet rq path _ hnodQ)) hmemrest
          | err t2 =>
              rw [retryGo_cons_err attempt maxRetries path count rest t t2
                rq ops att hge hatt]
              exact ih t2 _ _ _ k c hnodE.2
                (nodup_keys_mapSet rq path _ hnodQ) hmemrest

theorem retryGo_attempted (attempt : StateTracker → String → SyncOutcome)
    (maxRetries : Nat) :
    ∀ (entries : List (String × Nat)) (t : StateTracker)
      (rq : List (String × Nat)) (ops : List RemoteOp) (att : List String),
      (retryFailedGo attempt maxRetries entries t rq ops att).attempted =
        att ++ (entries.filter fun pc =>
          decide (pc.2 < maxRetries)).map Prod.fst := by
  intro entries
  induction entries with
  | nil => intro t rq ops att; simp [retryFailedGo]
  | cons e rest ih =>
      obtain ⟨path, count⟩ := e
      intro t rq ops att
      by_cases hge : count ≥ maxRetries
      · rw [retryGo_cons_ge attempt maxRetries path count rest t rq ops att
          hge]
        rw [ih t (mapDelete rq path) ops att]
        have : decide (count < maxRetries) = false := by
          simp; omega
        simp [List.filter_cons, this]
      · have hlt : decide (count < maxRetries) = true := by
          simp; omega
        cases hatt : attempt t path with
        | ok t2 newOps =>
            rw [retryGo_cons_ok attempt maxRetries path count rest t t2 rq
              ops newOps att hge hatt]
            rw [ih t2 _ _ _]
            simp [List.filter_cons, hlt]
        | err t2 =>
            rw [retryGo_cons_err attempt maxRetries path count rest t t2 rq
              ops att hge hatt]
            rw [ih t2 _ _ _]
            simp [List.filter_cons, hlt]

theorem retryGo_ops_delete_free
    (attempt : StateTracker → String → SyncOutcome) (maxRetries : Nat)
    (hfree : ∀ t p, ∀ op ∈ (attempt t p).ops, op.isDelete = false) :
    ∀ (entries : List (String × Nat)) (t : StateTracker)
      (rq : List (String × Nat)) (ops : List RemoteOp) (att : List String),
      (∀ op ∈ ops, op.isDelete = false) →
      ∀ op ∈ (retryFailedGo attempt maxRetries entries t rq ops att).ops,
        op.isDelete = false := by
  intro entries
  induction entries with
  | nil => intro t rq ops att hops; exact hops
  | cons e rest ih =>
      obtain ⟨path, count⟩ := e
      intro t rq ops att hops
      by_cases hge : count ≥ maxRetries
      · rw [retryGo_cons_ge attempt maxRetries path count rest t rq ops att
          hge]
        exact ih t _ ops att hops
      · cases hatt : attempt t path with
        | ok t2 newOps =>
            rw [retryGo_cons_ok attempt maxRetries path count rest t t2 rq
              ops newOps att hge hatt]
            refine ih t2 _ _ _ ?_
            intro op hop
            rcases List.mem_append.mp hop with hl | hr
            · exact hops op hl
            · have := hfree t path op
              rw [hatt] at this
              exact this hr
        | err t2 =>
            rw [retryGo_cons_err attempt maxRetries path count rest t t2 rq
              ops att hge hatt]
            exact ih t2 _ ops _ hops

/-- C5: a retryFailed pass drops an entry whose attempt count has reached
the ceiling and never retries it, increments the count of a failing entry
and removes a succeeding one (the pointwise queue characterization and the
attempted-paths characterization), and, concretely, with ceiling 3 a path
whose sync always fails is attempted on three consecutive passes,
then dropped with no further attempts on later passes. -/
theorem claim5_retry_ceiling :
    (∀ (attempt : StateTracker → String → SyncOutcome) (maxRetries : Nat)
       (t : StateTracker) (rq : List (String × Nat)) (okf : String → Bool),
      (∀ t2 p, (attempt t2 p).isOk = okf p) →
      (rq.map Prod.fst).Nodup →
      (∀ k c, (k, c) ∈ rq →
        mapGet (retryFailed attempt maxRetries t rq).retryQueue k =
          if maxRetries ≤ c ∨ okf k = true then none else some (c + 1)) ∧
      (retryFailed attempt maxRetries t rq).attempted =
        (rq.filter fun pc => decide (pc.2 < maxRetries)).map Prod.fst) ∧
    ((retryIter (fun t _ => SyncOutcome.err t) 3
        (StateTracker.init ("v")) [("note.md", 0)] 1).retryQueue =
          [("note.md", 1)] ∧
      (retryIter (fun t _ => SyncOutcome.err t) 3
        (StateTracker.init ("v")) [("note.md", 0)] 1).attempted =
          ["note.md"] ∧
      (retryIter (fun t _ => SyncOutcome.err t) 3
        (StateTracker.init ("v")) [("note.md", 0)] 2).retryQueue =
          [("note.md", 2)] ∧
      (retryIter (fun t _ => SyncOutcome.err t) 3
        (StateTracker.init ("v")) [("note.md", 0)] 3).retryQueue =
          [("note.md", 3)] ∧
      (retryIter (fun t _ => SyncOutcome.err t) 3
        (StateTracker.init ("v")) [("note.md", 0)] 3).attempted =
          ["note.md"] ∧
      (retryIter (fun t _ => SyncOutcome.err t) 3
        (StateTracker.init ("v")) [("note.md", 0)] 4).retryQueue = [] ∧
      (retryIter (fun t _ => SyncOutcome.err t) 3
        (StateTracker.init ("v")) [("note.md", 0)] 4).attempted = [] ∧
      (retryIter (fun t _ => SyncOutcome.err t) 3
        (StateTracker.init ("v")) [("note.md", 0)] 5).retryQueue = [] ∧
      (retryIter (fun t _ => SyncOutcome.err t) 3
        (StateTracker.init ("v")) [("note.md", 0)] 5).attempted = []) := by
  constructor
  · intro attempt maxRetries t rq okf hcl hnod
    constructor
    · intro k c hmem
      exact retryGo_lookup attempt maxRetries okf hcl rq t rq [] [] k c
        hnod hnod hmem
    · exact retryGo_attempted attempt maxRetries rq t rq [] []
  · refine ⟨by decide, by decide, by decide, by decide, by decide,
      by decide, by decide, by decide, by decide⟩

/-- Witness for C5: a first failing pass over a single fresh entry leaves
it at attempt count 1. -/
theorem claim5_retry_ceiling_witness :
    mapGet (retryFailed (fun t _ => SyncOutcome.err t) 3
        (StateTracker.init ("v")) [("a.md", 0)]).retryQueue ("a.md") =
      some 1 :=
  (claim5_retry_ceiling.1 (fun t _ => SyncOutcome.err t) 3
      (StateTracker.init ("v")) [("a.md", 0)] (fun _ => false)
      (fun _ _ => rfl) (by decide)).1 ("a.md") 0 (by decide)

theorem syncNote_ops_upsert (t : StateTracker) (path hsh : String)
    (now mtime size : Nat) (dbOk : Bool) :
    ∀ op ∈ (syncNote t path hsh now mtime size dbOk).ops,
      op.isDelete = false := by
  unfold syncNote
  split
  · simp [SyncOutcome.ops]
  · split
    · intro op hop
      simp [SyncOutcome.ops] at hop
      subst hop
      rfl
    · simp [SyncOutcome.ops]

theorem syncAttachment_ops_upsert (maxSize : Nat) (t : StateTracker)
    (path hsh : String) (now mtime size : Nat) (dbOk : Bool) :
    ∀ op ∈ (syncAttachment maxSize t path hsh now mtime size dbOk).ops,
      op.isDelete = false := by
  unfold syncAttachment
  split
  · simp [SyncOutcome.ops]
  · split
    · simp [SyncOutcome.ops]
    · split
      · intro op hop
        simp [SyncOutcome.ops] at hop
        subst hop
        rfl
      · simp [SyncOutcome.ops]

/-- C9: the retry path only ever re-runs the upsert dispatch, which never
issues a delete-flavoured remote call; hence a retryFailed pass over
upsert attempts issues no remote delete, and a retry entry left by a
failed Delete sync — whose local file no longer exists — is resolved by
the retry as a success with zero remote calls and removed from the
queue. -/
theorem claim9_retry_upsert_only :
    (∀ (vault : String → Option VaultEntry) (ignore : String → Bool)
       (maxSize : Nat) (t : StateTracker) (path : String) (now : Nat)
       (dbOk : Bool),
      ∀ op ∈ (upsertFile vault ignore maxSize t path now dbOk).ops,
        op.isDelete = false) ∧
    (∀ (attempt : StateTracker → String → SyncOutcome) (maxRetries : Nat)
       (t : StateTracker) (rq : List (String × Nat)),
      (∀ t2 p, ∀ op ∈ (attempt t2 p).ops, op.isDelete = false) →
      ∀ op ∈ (retryFailed attempt maxRetries t rq).ops,
        op.isDelete = false) ∧
    (∀ (vault : String → Option VaultEntry) (ignore : String → Bool)
       (maxSize : Nat) (t : StateTracker) (path : String) (now : Nat)
       (dbOkf : String → Bool) (maxRetries c : Nat),
      vault path = none → c < maxRetries →
      retryFailed
          (fun t2 p2 => upsertFile vault ignore maxSize t2 p2 now (dbOkf p2))
          maxRetries t [(path, c)] =
        { tracker := t, retryQueue := [], ops := [],
          attempted := [path] }) := by
  have hupsert : ∀ (vault : String → Option VaultEntry)
      (ignore : String → Bool) (maxSize : Nat) (t : StateTracker)
      (path : String) (now : Nat) (dbOk : Bool),
      ∀ op ∈ (upsertFile vault ignore maxSize t path now dbOk).ops,
        op.isDelete = false := by
    intro vault ignore maxSize t path now dbOk op hop
    unfold upsertFile at hop
    cases hv : vault path with
    | none => rw [hv] at hop; simp [SyncOutcome.ops] at hop
    | some entry =>
        rw [hv] at hop
        cases entry with
        | folder => simp [SyncOutcome.ops] at hop
        | file ext hsh mtime size =>
            by_cases hig : ignore path
            · simp [hig, SyncOutcome.ops] at hop
            · simp only [hig, Bool.false_eq_true, if_false] at hop
              by_cases hext : ext = "md"
              · rw [if_pos hext] at hop
                exact syncNote_ops_upsert t path hsh now mtime size dbOk
                  op hop
              · rw [if_neg hext] at hop
                exact syncAttachment_ops_upsert maxSize t path hsh now
                  mtime size dbOk op hop
  refine ⟨hupsert, ?_, ?_⟩
  · intro attempt maxRetries t rq hfree op hop
    exact retryGo_ops_delete_free attempt maxRetries hfree rq t rq [] []
      (by simp) op hop
  · intro vault ignore maxSize t path now dbOkf maxRetries c hv hc
    have hstep : upsertFile vault ignore maxSize t path now (dbOkf path) =
        SyncOutcome.ok t [] := by
      unfold upsertFile
      rw [hv]
    unfold retryFailed
    rw [retryGo_cons_ok
      (fun t2 p2 => upsertFile vault ignore maxSize t2 p2 now (dbOkf p2))
      maxRetries path c [] t t [(path, c)] [] [] [] (by omega) hstep]
    simp [retryFailedGo, mapSet, mapDelete]

/-- Witness for C9: a retry entry for a locally deleted file is resolved
as a success with zero remote calls and removed from the queue. -/
theorem claim9_retry_upsert_only_witness :
    retryFailed
        (fun t2 p2 => upsertFile (fun _ => none) (fun _ => false) 10 t2 p2 0
          ((fun _ => true) p2))
        3 (StateTracker.init ("v")) [("gone.md", 1)] =
      { tracker := StateTracker.init ("v"), retryQueue := [], ops := [],
        attempted := ["gone.md"] } :=
  claim9_retry_upsert_only.2.2 (fun _ => none) (fun _ => false) 10
    (StateTracker.init ("v")) ("gone.md") 0 (fun _ => true) 3 1 rfl
    (by decide)

end ObsyncPG
